import Mathlib

/-!
Verification of the NTFS on-disk structure decoder (zX3no/ntfs).

The development shallowly embeds `src/partition_boot_sector.rs` (the boot
sector decoder `pbs`) and the update-sequence fixup step of the File Record
decoder described in the repository documentation (`src/file_record.rs`
declares `FileRecord` with no body, so the fixup is modelled from the spec).

Modelling conventions:
* byte buffers are `List Nat`; a byte read `buf[i]` is `buf.getD i 0`
  (`read_exact` fills the whole 512-byte array, so in-range reads never
  see the default);
* Rust panics (failed `assert_eq!`, `unwrap`, and debug-profile arithmetic
  overflow) terminate `pbs` without producing a record; they are embedded
  as `Except.error` values labelled by the check site that panicked;
* machine integers are `Nat`/`Int` with overflow made explicit: the only
  overflowing operations in the source are `i8::abs` at `i8::MIN` and
  `2u32.pow` for exponents at least 32, both of which panic with the
  default (debug) profile and are embedded as failure.
-/

/-- The payload of a `std::io::Error` produced by the `ByteSource`
(`reader.read_exact`).  The decoder never inspects it, so a single opaque
numeric code suffices to track verbatim propagation. -/
structure IoError where
  code : Nat
  deriving DecidableEq, Repr

/-- `enum Size { Bytes(u32), Clusters(u8) }` from
`src/partition_boot_sector.rs` lines 39-43. -/
inductive Size where
  | Bytes (n : Nat)
  | Clusters (n : Nat)
  deriving DecidableEq, Repr

/-- `struct PartitionBootSector` from `src/partition_boot_sector.rs`
lines 45-61, field for field. -/
structure PartitionBootSector where
  bytes_per_sector : Nat
  sectors_per_cluster : Nat
  sectors_per_track : Nat
  number_of_heads : Nat
  hidden_sectors : Nat
  total_sectors : Nat
  mft_cluster_number : Nat
  mft_mirror_cluster_number : Nat
  file_record_segment : Size
  index_buffer : Size
  volume_serial_number : Nat
  deriving DecidableEq, Repr

/-- Failure outcomes of `pbs`.  The Rust function panics at each failed
check; each constructor labels one check site (the two jump/OEM checks of
lines 68-74 share `notNtfs`, and each zero-filled "unused" region check
maps to `unusedNonZero`). -/
inductive PbsError where
  | ioError (e : IoError)
  | notNtfs
  | invalidBytesPerSector
  | invalidSectorsPerCluster
  | unusedNonZero
  | invalidMediaDescriptor
  | invalidSectorsPerTrack
  | invalidNumberOfHeads
  | invalidEbpbUnused
  | invalidFileRecordSegment
  | invalidIndexBuffer
  | invalidEndOfSector
  deriving DecidableEq, Repr

/-- `u16::from_le_bytes([buf[i], buf[i+1]])`. -/
def le16 (buf : List Nat) (i : Nat) : Nat :=
  buf.getD i 0 + 256 * buf.getD (i + 1) 0

/-- `u32::from_le_bytes([buf[i], .., buf[i+3]])`. -/
def le32 (buf : List Nat) (i : Nat) : Nat :=
  le16 buf i + 65536 * le16 buf (i + 2)

/-- `u64::from_le_bytes(buf[i..i+8])`. -/
def le64 (buf : List Nat) (i : Nat) : Nat :=
  le32 buf i + 4294967296 * le32 buf (i + 4)

/-- The bytes of the ASCII string `"NTFS    "` that the OEM ID
(`buf[3..11]`) is compared against (line 74; `from_utf8` of the slice
equals the ASCII literal exactly when the raw bytes are these). -/
def oemId : List Nat := [0x4E, 0x54, 0x46, 0x53, 0x20, 0x20, 0x20, 0x20]

/-- Two's-complement value of a byte read as `i8::from_le_bytes([b])`. -/
def i8val (b : Nat) : Int :=
  if b < 128 then (b : Int) else (b : Int) - 256

/-- Signed "clusters-or-bytes" decode of the File Record Segment byte,
transcribing `src/partition_boot_sector.rs` lines 143-148:
`is_positive()` is the strict test `0 < v`; the negative branch computes
`2u32.pow(v.abs() as u32)`, where `i8::abs` panics at `i8::MIN` (value
-128) and `u32::pow` panics (debug profile) once the exponent reaches 32;
both panics are embedded as `none`. -/
def decodeSizeFRS (b : Nat) : Option Size :=
  if 0 < i8val b then
    some (Size.Clusters b)
  else if (i8val b).natAbs = 128 then
    none
  else if 32 ≤ (i8val b).natAbs then
    none
  else
    some (Size.Bytes (2 ^ (i8val b).natAbs))

/-- Signed "clusters-or-bytes" decode of the Index Buffer byte,
transcribing `src/partition_boot_sector.rs` lines 159-164 (a verbatim
duplicate of lines 143-148 in the source). -/
def decodeSizeIB (b : Nat) : Option Size :=
  if 0 < i8val b then
    some (Size.Clusters b)
  else if (i8val b).natAbs = 128 then
    none
  else if 32 ≤ (i8val b).natAbs then
    none
  else
    some (Size.Bytes (2 ^ (i8val b).natAbs))

/-- The record built on the success path of `pbs` (lines 193-205): every
field is the little-endian value at its fixed offset.  The two `Size`
fields hold the decode results; on the success path the preceding
assertions pin them to `some`, so the `getD` defaults are unreachable. -/
def pbsFields (buf : List Nat) : PartitionBootSector where
  bytes_per_sector := le16 buf 11
  sectors_per_cluster := buf.getD 13 0
  sectors_per_track := le16 buf 24
  number_of_heads := le16 buf 26
  hidden_sectors := le32 buf 28
  total_sectors := le64 buf 40
  mft_cluster_number := le64 buf 48
  mft_mirror_cluster_number := le64 buf 56
  file_record_segment := (decodeSizeFRS (buf.getD 64 0)).getD (Size.Bytes 0)
  index_buffer := (decodeSizeIB (buf.getD 68 0)).getD (Size.Bytes 0)
  volume_serial_number := le64 buf 72

/-- All checks performed by `pbs`, in source order: the conjunction of
every `assert_eq!` of `src/partition_boot_sector.rs` lines 67-191 (the
constant self-checks such as `assert_eq!(28, 0x1C)` are vacuous and
omitted).  The two decode conditions combine "the decode did not panic"
with the assertion on its value (lines 143-149 and 159-165). -/
abbrev pbsChecks (buf : List Nat) : Prop :=
  (buf.getD 0 0 = 0xEB ∧ buf.getD 1 0 = 0x52 ∧ buf.getD 2 0 = 0x90) ∧
  (buf.drop 3).take 8 = oemId ∧
  le16 buf 11 = 0x0200 ∧
  buf.getD 13 0 = 0x08 ∧
  (buf.getD 14 0 = 0 ∧ buf.getD 15 0 = 0) ∧
  (buf.getD 16 0 = 0 ∧ buf.getD 17 0 = 0 ∧ buf.getD 18 0 = 0) ∧
  (buf.getD 19 0 = 0 ∧ buf.getD 20 0 = 0) ∧
  buf.getD 21 0 = 0xF8 ∧
  (buf.getD 22 0 = 0 ∧ buf.getD 23 0 = 0) ∧
  le16 buf 24 = 0x003F ∧
  le16 buf 26 = 0x00FF ∧
  (buf.getD 32 0 = 0 ∧ buf.getD 33 0 = 0 ∧ buf.getD 34 0 = 0 ∧ buf.getD 35 0 = 0) ∧
  le32 buf 36 = 0x00800080 ∧
  decodeSizeFRS (buf.getD 64 0) = some (Size.Bytes 1024) ∧
  (buf.getD 65 0 = 0 ∧ buf.getD 66 0 = 0 ∧ buf.getD 67 0 = 0) ∧
  decodeSizeIB (buf.getD 68 0) = some (Size.Clusters 0x01) ∧
  (buf.getD 69 0 = 0 ∧ buf.getD 70 0 = 0 ∧ buf.getD 71 0 = 0) ∧
  (buf.getD 80 0 = 0 ∧ buf.getD 81 0 = 0 ∧ buf.getD 82 0 = 0 ∧ buf.getD 83 0 = 0) ∧
  le16 buf 510 = 0xAA55

/-- Runs a sequence of checks in order: the first failing check aborts
with its error (as the corresponding `assert_eq!` panic does); if all
pass, control reaches the code after the asserts. -/
def runChecks : List (Bool × PbsError) → Except PbsError Unit
  | [] => .ok ()
  | (true, _) :: rest => runChecks rest
  | (false, e) :: _ => .error e

/-- The checks performed by `pbs` in source order
(`src/partition_boot_sector.rs` lines 67-191), each paired with the
outcome of its panic.  The constant self-checks such as
`assert_eq!(28, 0x1C)` always pass and are omitted.  The two `Size`
conditions combine "the decode did not panic" with the `assert_eq!` on
the decoded value (lines 143-149 and 159-165). -/
def pbsCheckList (buf : List Nat) : List (Bool × PbsError) :=
  [(decide (buf.getD 0 0 = 0xEB ∧ buf.getD 1 0 = 0x52 ∧ buf.getD 2 0 = 0x90), .notNtfs),
   (decide ((buf.drop 3).take 8 = oemId), .notNtfs),
   (decide (le16 buf 11 = 0x0200), .invalidBytesPerSector),
   (decide (buf.getD 13 0 = 0x08), .invalidSectorsPerCluster),
   (decide (buf.getD 14 0 = 0 ∧ buf.getD 15 0 = 0), .unusedNonZero),
   (decide (buf.getD 16 0 = 0 ∧ buf.getD 17 0 = 0 ∧ buf.getD 18 0 = 0), .unusedNonZero),
   (decide (buf.getD 19 0 = 0 ∧ buf.getD 20 0 = 0), .unusedNonZero),
   (decide (buf.getD 21 0 = 0xF8), .invalidMediaDescriptor),
   (decide (buf.getD 22 0 = 0 ∧ buf.getD 23 0 = 0), .unusedNonZero),
   (decide (le16 buf 24 = 0x003F), .invalidSectorsPerTrack),
   (decide (le16 buf 26 = 0x00FF), .invalidNumberOfHeads),
   (decide (buf.getD 32 0 = 0 ∧ buf.getD 33 0 = 0 ∧ buf.getD 34 0 = 0 ∧ buf.getD 35 0 = 0),
     .unusedNonZero),
   (decide (le32 buf 36 = 0x00800080), .invalidEbpbUnused),
   (decide (decodeSizeFRS (buf.getD 64 0) = some (Size.Bytes 1024)), .invalidFileRecordSegment),
   (decide (buf.getD 65 0 = 0 ∧ buf.getD 66 0 = 0 ∧ buf.getD 67 0 = 0), .unusedNonZero),
   (decide (decodeSizeIB (buf.getD 68 0) = some (Size.Clusters 0x01)), .invalidIndexBuffer),
   (decide (buf.getD 69 0 = 0 ∧ buf.getD 70 0 = 0 ∧ buf.getD 71 0 = 0), .unusedNonZero),
   (decide (buf.getD 80 0 = 0 ∧ buf.getD 81 0 = 0 ∧ buf.getD 82 0 = 0 ∧ buf.getD 83 0 = 0),
     .unusedNonZero),
   (decide (le16 buf 510 = 0xAA55), .invalidEndOfSector)]

/-- `pub fn pbs(reader) -> PartitionBootSector`
(`src/partition_boot_sector.rs` lines 63-206).  The input is the outcome
of `reader.read_exact` (line 65): an I/O failure (whose `unwrap` panic is
embedded as the `ioError` outcome, carrying the error verbatim) or the
512 bytes read.  The body performs the assert sequence and, if nothing
panicked, builds the record from the little-endian fields. -/
def pbs : Except IoError (List Nat) → Except PbsError PartitionBootSector
  | .error e => .error (.ioError e)
  | .ok buf =>
    match runChecks (pbsCheckList buf) with
    | .error e => .error e
    | .ok _ => .ok (pbsFields buf)

/-- `BufReader<File>` over the volume: the underlying bytes plus the
read cursor. -/
structure Reader where
  data : List Nat
  pos : Nat
  deriving DecidableEq, Repr

/-- `reader.read_exact(&mut buf)` for a buffer of `n` bytes: yields the
next `n` bytes and advances the cursor, or fails with an I/O error
(end of stream) without touching the underlying bytes. -/
def readExact (r : Reader) (n : Nat) : Except IoError (List Nat) × Reader :=
  if r.pos + n ≤ r.data.length then
    (.ok ((r.data.drop r.pos).take n), ⟨r.data, r.pos + n⟩)
  else
    (.error ⟨0⟩, r)

/-- One call of `pbs(&mut reader)`: performs the 512-byte read of line 65
and decodes the bytes obtained. -/
def pbsRun (r : Reader) : Except PbsError PartitionBootSector × Reader :=
  (pbs (readExact r 512).1, (readExact r 512).2)

/-- The conditions claimed to be pinned by a successful `pbs` decode:
the fixed geometry values, both size decodes, and the documented-unused
regions at their typical values. -/
abbrev geometryPinned (buf : List Nat) : Prop :=
  buf.getD 13 0 = 0x08 ∧
  buf.getD 21 0 = 0xF8 ∧
  le16 buf 24 = 0x003F ∧
  le16 buf 26 = 0x00FF ∧
  decodeSizeFRS (buf.getD 64 0) = some (Size.Bytes 1024) ∧
  decodeSizeIB (buf.getD 68 0) = some (Size.Clusters 1) ∧
  le32 buf 36 = 0x00800080 ∧
  (buf.getD 14 0 = 0 ∧ buf.getD 15 0 = 0 ∧ buf.getD 16 0 = 0 ∧ buf.getD 17 0 = 0 ∧
    buf.getD 18 0 = 0 ∧ buf.getD 19 0 = 0 ∧ buf.getD 20 0 = 0) ∧
  (buf.getD 65 0 = 0 ∧ buf.getD 66 0 = 0 ∧ buf.getD 67 0 = 0) ∧
  (buf.getD 22 0 = 0 ∧ buf.getD 23 0 = 0) ∧
  (buf.getD 32 0 = 0 ∧ buf.getD 33 0 = 0 ∧ buf.getD 34 0 = 0 ∧ buf.getD 35 0 = 0) ∧
  (buf.getD 69 0 = 0 ∧ buf.getD 70 0 = 0 ∧ buf.getD 71 0 = 0) ∧
  (buf.getD 80 0 = 0 ∧ buf.getD 81 0 = 0 ∧ buf.getD 82 0 = 0 ∧ buf.getD 83 0 = 0)

/-- Each integer field of the decoded record equals the little-endian
value at its documented fixed offset in the buffer. -/
abbrev fieldsLittleEndian (buf : List Nat) (r : PartitionBootSector) : Prop :=
  r.bytes_per_sector = le16 buf 11 ∧
  r.sectors_per_cluster = buf.getD 13 0 ∧
  r.sectors_per_track = le16 buf 24 ∧
  r.number_of_heads = le16 buf 26 ∧
  r.hidden_sectors = le32 buf 28 ∧
  r.total_sectors = le64 buf 40 ∧
  r.mft_cluster_number = le64 buf 48 ∧
  r.mft_mirror_cluster_number = le64 buf 56 ∧
  r.volume_serial_number = le64 buf 72

/-- Byte `i` of a concrete boot sector that passes every check of `pbs`
(jump bytes, OEM ID, pinned geometry, size bytes `0xF6`/`0x01`, end
marker), with all free fields zero. -/
def goodByte (i : Nat) : Nat :=
  if i = 0 then 0xEB else if i = 1 then 0x52 else if i = 2 then 0x90 else
  if i = 3 then 0x4E else if i = 4 then 0x54 else if i = 5 then 0x46 else
  if i = 6 then 0x53 else if 7 ≤ i ∧ i ≤ 10 then 0x20 else
  if i = 12 then 0x02 else
  if i = 13 then 0x08 else
  if i = 21 then 0xF8 else
  if i = 24 then 0x3F else
  if i = 26 then 0xFF else
  if i = 36 then 0x80 else if i = 38 then 0x80 else
  if i = 64 then 0xF6 else
  if i = 68 then 0x01 else
  if i = 510 then 0x55 else if i = 511 then 0xAA else 0

/-- A concrete 512-byte boot sector accepted by `pbs`. -/
def goodBuf : List Nat := (List.range 512).map goodByte

/-- The record `pbs` decodes from `goodBuf`. -/
def goodRecord : PartitionBootSector where
  bytes_per_sector := 512
  sectors_per_cluster := 8
  sectors_per_track := 0x3F
  number_of_heads := 0xFF
  hidden_sectors := 0
  total_sectors := 0
  mft_cluster_number := 0
  mft_mirror_cluster_number := 0
  file_record_segment := Size.Bytes 1024
  index_buffer := Size.Clusters 1
  volume_serial_number := 0

/-- A concrete 512-byte buffer that is not an NTFS boot sector. -/
def zeroBuf : List Nat := List.replicate 512 0

/-- Failure outcomes of the File Record fixup verification: `badFixup`
when a sector tail does not match the Update Sequence Number (a torn
write was detected), `badLayout` when the buffer and the Update Sequence
Array sizes do not line up (unreachable for well-formed records). -/
inductive FixupError where
  | badFixup
  | badLayout
  deriving DecidableEq, Repr

/-- Sector-sized chunk `j` of `buf` has its last two bytes equal to the
Update Sequence Number (a two-byte value, kept as a byte pair). -/
abbrev chunkTailOk (ss : Nat) (usn : Nat × Nat) (buf : List Nat) (j : Nat) : Prop :=
  buf.getD (j * ss + (ss - 2)) 0 = usn.1 ∧ buf.getD (j * ss + (ss - 1)) 0 = usn.2

/-- Modelled from the spec: the File Record decoder of this repository is
not implemented under `src/` (`src/file_record.rs` only documents the
header layout and declares `pub struct FileRecord {}` with no body), so
its fixup-verification step is transcribed from the specification's
section 4.4: for each sector-sized chunk of the buffer, verify that the
chunk's last two bytes equal the USN and overwrite them with the
corresponding original byte pair from the Update Sequence Array; a
mismatched tail aborts with `badFixup` before any further chunk is
interpreted.  `ss` is the sector byte size, `usn` the Update Sequence
Number, and the array entries are consumed one per chunk. -/
def applyFixup (ss : Nat) (usn : Nat × Nat) :
    List (Nat × Nat) → List Nat → Except FixupError (List Nat)
  | [], buf => if buf.isEmpty then .ok [] else .error .badLayout
  | entry :: usa, buf =>
    if ss ≤ buf.length then
      if buf.getD (ss - 2) 0 = usn.1 ∧ buf.getD (ss - 1) 0 = usn.2 then
        match applyFixup ss usn usa (buf.drop ss) with
        | .ok rest => .ok (buf.take (ss - 2) ++ entry.1 :: entry.2 :: rest)
        | .error err => .error err
      else .error .badFixup
    else .error .badLayout

/-- The claimed behaviour of the fixup step on a buffer of
sector-multiple size: if every chunk tail matches the USN, it succeeds
and the output replaces exactly the two tail bytes of each sector with
the corresponding Update Sequence Array pair, leaving every other byte
unchanged; if some chunk tail mismatches, it fails with `badFixup`. -/
abbrev fixupSpec (ss : Nat) (usn : Nat × Nat) (usa : List (Nat × Nat)) (buf : List Nat) : Prop :=
  ((∀ j, j < usa.length → chunkTailOk ss usn buf j) →
    ∃ out, applyFixup ss usn usa buf = .ok out ∧ out.length = buf.length ∧
      ∀ i, i < buf.length →
        out.getD i 0 =
          if i % ss = ss - 2 then (usa.getD (i / ss) (0, 0)).1
          else if i % ss = ss - 1 then (usa.getD (i / ss) (0, 0)).2
          else buf.getD i 0) ∧
  ((∃ j, j < usa.length ∧ ¬chunkTailOk ss usn buf j) →
    applyFixup ss usn usa buf = .error .badFixup)

theorem runChecks_ok_iff (l : List (Bool × PbsError)) :
    runChecks l = .ok () ↔ ∀ p ∈ l, p.1 = true := by
  induction l with
  | nil => simp [runChecks]
  | cons p rest ih =>
    rcases p with ⟨b, e⟩
    cases b
    · simp [runChecks]
    · simp [runChecks, ih]

theorem pbs_ok_elim (buf : List Nat) (r : PartitionBootSector)
    (h : pbs (.ok buf) = .ok r) : pbsChecks buf ∧ r = pbsFields buf := by
  simp only [pbs] at h
  rcases hc : runChecks (pbsCheckList buf) with e | u
  · rw [hc] at h
    exact absurd h (by simp)
  · cases u
    rw [hc] at h
    have hall : ∀ p ∈ pbsCheckList buf, p.1 = true := (runChecks_ok_iff _).mp hc
    simp only [pbsCheckList, List.mem_cons, List.not_mem_nil, or_false, forall_eq_or_imp,
      forall_eq, decide_eq_true_eq] at hall
    refine ⟨?_, ?_⟩
    · exact hall
    · cases h
      rfl

/-- Claim C1 (counterexample): the signed-size decode at input byte 0 does
not return `Clusters(0)`; `i8::is_positive()` is strict, so byte 0 takes
the negative branch and decodes to `Bytes(2^0) = Bytes(1)`. -/
theorem decode_zero_not_clusters :
    decodeSizeFRS 0 = some (Size.Bytes 1) ∧ decodeSizeFRS 0 ≠ some (Size.Clusters 0) := by
  decide

/-- Claim C1 (amended): for every input byte of the single-byte
"clusters-or-bytes" field whose two's-complement value N is strictly
positive (1 ≤ N ≤ 127), the signed-size decode performed by `pbs`
returns `Clusters(N)` (in particular decode(0x01) = Clusters(1)); the
quantifier does not cover N = 0, which decodes to `Bytes(1)`. -/
theorem decode_clusters_of_positive (b : Nat) (h1 : 1 ≤ b) (h2 : b ≤ 127) :
    decodeSizeFRS b = some (Size.Clusters b) := by
  unfold decodeSizeFRS
  rw [show i8val b = (b : Int) from by unfold i8val; rw [if_pos (by omega : b < 128)]]
  rw [if_pos (show (0 : Int) < (b : Int) by omega)]

/-- Witness for C1's amended theorem at byte 0x01. -/
theorem decode_clusters_of_positive_witness :
    1 ≤ 1 ∧ 1 ≤ 127 ∧ decodeSizeFRS 1 = some (Size.Clusters 1) :=
  ⟨by decide, by decide, decode_clusters_of_positive 1 (by decide) (by decide)⟩

/-- Claim C2 (counterexample): byte 0xE0 (two's-complement value -32)
does not decode to `Bytes(2^32)`: `2u32.pow(32)` overflows `u32` and the
decode fails (debug-profile panic), so the claim's quantification over
all k in [1,128] is false. -/
theorem decode_neg32_overflows :
    decodeSizeFRS 224 = none ∧ decodeSizeFRS 224 ≠ some (Size.Bytes (2 ^ 32)) := by
  decide

/-- Claim C2 (amended): for every byte with two's-complement value -k
where k is in [1,31], the signed-size decode returns `Bytes(2^k)` (in
particular decode(0xF6) = Bytes(1024)); for k in [32,128] the u32 power
(or `i8::abs` at k = 128) overflows and the decode fails instead. -/
theorem decode_bytes_of_negative (k : Nat) (h1 : 1 ≤ k) (h2 : k ≤ 31) :
    decodeSizeFRS (256 - k) = some (Size.Bytes (2 ^ k)) := by
  have hv : i8val (256 - k) = -(k : Int) := by
    unfold i8val
    rw [if_neg (by omega : ¬(256 - k < 128))]
    omega
  unfold decodeSizeFRS
  rw [hv]
  rw [show ((-(k : Int)).natAbs) = k by omega]
  rw [if_neg (show ¬((0 : Int) < -(k : Int)) by omega)]
  rw [if_neg (by omega : ¬(k = 128))]
  rw [if_neg (by omega : ¬(32 ≤ k))]

/-- Witness for C2's amended theorem at byte 0xF6 = 256 - 10, which
decodes to `Bytes(1024)`. -/
theorem decode_bytes_of_negative_witness :
    1 ≤ 10 ∧ 10 ≤ 31 ∧ decodeSizeFRS (256 - 10) = some (Size.Bytes (2 ^ 10)) :=
  ⟨by decide, by decide, decode_bytes_of_negative 10 (by decide) (by decide)⟩

/-- Claim C3: `pbs` returns a `PartitionBootSector` only for buffers
matching one fixed geometry: success implies sectors-per-cluster 8,
media descriptor 0xF8, sectors-per-track 0x3F, number-of-heads 0xFF,
File Record Segment byte decoding to `Bytes(1024)`, Index Buffer byte
decoding to `Clusters(1)`, EBPB bytes 0x24..0x28 equal to 0x00800080,
and every documented-unused region zero; any buffer violating one of
these is rejected (contrapositive). -/
theorem pbs_pins_geometry (buf : List Nat) (r : PartitionBootSector)
    (h : pbs (.ok buf) = .ok r) : geometryPinned buf := by
  obtain ⟨hc, -⟩ := pbs_ok_elim buf r h
  obtain ⟨h1, h2, h3, h4, h5, h6, h7, h8, h9, h10, h11, h12, h13, h14, h15, h16, h17, h18,
    h19⟩ := hc
  exact ⟨h4, h8, h10, h11, h14, h16, h13,
    ⟨h5.1, h5.2, h6.1, h6.2.1, h6.2.2, h7.1, h7.2⟩, h15, h9, h12, h17, h18⟩

set_option maxRecDepth 8000 in
/-- Witness for C3 at the concrete accepted boot sector `goodBuf`. -/
theorem pbs_pins_geometry_witness :
    pbs (.ok goodBuf) = .ok goodRecord ∧ geometryPinned goodBuf :=
  ⟨rfl, pbs_pins_geometry goodBuf goodRecord rfl⟩

/-- Claim C4: for every 512-byte buffer, a wrong end-of-sector marker
(bytes 0x1FE as little-endian u16 differing from 0xAA55) or a wrong
bytes-per-sector field (offset 0x0B differing from 0x0200) makes
decoding fail with no record; and whenever decoding succeeds, the
returned `bytes_per_sector` is 512 and the marker was 0xAA55. -/
theorem pbs_marker_and_bps (buf : List Nat) (r : PartitionBootSector)
    (hlen : buf.length = 512) :
    ((le16 buf 510 ≠ 0xAA55 ∨ le16 buf 11 ≠ 0x0200) →
      (pbs (.ok buf)).toOption = none) ∧
    (pbs (.ok buf) = .ok r →
      r.bytes_per_sector = 512 ∧ le16 buf 510 = 0xAA55) := by
  constructor
  · intro hbad
    rcases hp : pbs (.ok buf) with e | r2
    · rfl
    · exfalso
      obtain ⟨hc, -⟩ := pbs_ok_elim buf r2 hp
      obtain ⟨-, -, h3, -, -, -, -, -, -, -, -, -, -, -, -, -, -, -, h19⟩ := hc
      rcases hbad with hb | hb
      · exact hb h19
      · exact hb h3
  · intro hok
    obtain ⟨hc, hr⟩ := pbs_ok_elim buf r hok
    obtain ⟨-, -, h3, -, -, -, -, -, -, -, -, -, -, -, -, -, -, -, h19⟩ := hc
    subst hr
    exact ⟨h3, h19⟩

set_option maxRecDepth 8000 in
/-- Witness for C4 at the concrete all-zero buffer, whose marker and
bytes-per-sector field are both wrong, so decoding fails. -/
theorem pbs_marker_and_bps_witness :
    zeroBuf.length = 512 ∧
    (((le16 zeroBuf 510 ≠ 0xAA55 ∨ le16 zeroBuf 11 ≠ 0x0200) →
        (pbs (.ok zeroBuf)).toOption = none) ∧
      (pbs (.ok zeroBuf) = .ok goodRecord →
        goodRecord.bytes_per_sector = 512 ∧ le16 zeroBuf 510 = 0xAA55)) :=
  ⟨by simp [zeroBuf], pbs_marker_and_bps zeroBuf goodRecord (by simp [zeroBuf])⟩

/-- Claim C5: for every 512-byte buffer whose first three bytes differ
from 0xEB 0x52 0x90 or whose bytes 3..11 differ from the ASCII
`"NTFS    "`, decoding fails with the not-NTFS outcome and returns no
record. -/
theorem pbs_notNtfs_of_bad_magic (buf : List Nat) (hlen : buf.length = 512)
    (hbad : ¬(buf.getD 0 0 = 0xEB ∧ buf.getD 1 0 = 0x52 ∧ buf.getD 2 0 = 0x90) ∨
      (buf.drop 3).take 8 ≠ oemId) :
    pbs (.ok buf) = .error .notNtfs := by
  by_cases h1 : buf.getD 0 0 = 0xEB ∧ buf.getD 1 0 = 0x52 ∧ buf.getD 2 0 = 0x90
  · have h2 : ¬((buf.drop 3).take 8 = oemId) := by
      rcases hbad with hb | hb
      · exact absurd h1 hb
      · exact hb
    simp only [pbs, pbsCheckList]
    rw [decide_eq_true h1, decide_eq_false h2]
    rfl
  · simp only [pbs, pbsCheckList]
    rw [decide_eq_false h1]
    rfl

set_option maxRecDepth 8000 in
/-- Witness for C5 at the concrete all-zero buffer (wrong jump bytes and
wrong OEM ID). -/
theorem pbs_notNtfs_of_bad_magic_witness :
    zeroBuf.length = 512 ∧
    (¬(zeroBuf.getD 0 0 = 0xEB ∧ zeroBuf.getD 1 0 = 0x52 ∧ zeroBuf.getD 2 0 = 0x90) ∨
      (zeroBuf.drop 3).take 8 ≠ oemId) ∧
    pbs (.ok zeroBuf) = .error .notNtfs :=
  ⟨by simp [zeroBuf], by decide,
    pbs_notNtfs_of_bad_magic zeroBuf (by simp [zeroBuf]) (by decide)⟩

/-- Claim C6: for every 512-byte buffer on which `pbs` succeeds, each
integer field of the returned record equals the little-endian value at
its documented fixed offset (0x0B, 0x0D, 0x18, 0x1A, 0x1C, 0x28, 0x30,
0x38, 0x48). -/
theorem pbs_fields_little_endian (buf : List Nat) (r : PartitionBootSector)
    (hlen : buf.length = 512) (h : pbs (.ok buf) = .ok r) :
    fieldsLittleEndian buf r := by
  obtain ⟨-, hr⟩ := pbs_ok_elim buf r h
  subst hr
  exact ⟨rfl, rfl, rfl, rfl, rfl, rfl, rfl, rfl, rfl⟩

set_option maxRecDepth 8000 in
/-- Witness for C6 at the concrete accepted boot sector `goodBuf`. -/
theorem pbs_fields_little_endian_witness :
    goodBuf.length = 512 ∧ pbs (.ok goodBuf) = .ok goodRecord ∧
    fieldsLittleEndian goodBuf goodRecord :=
  ⟨rfl, rfl, pbs_fields_little_endian goodBuf goodRecord rfl rfl⟩

/-- Claim C7: the decoding rule applied to the File Record Segment byte
(lines 143-148) and the rule applied to the Index Buffer byte (lines
159-164) are the same function: the two duplicated code blocks are
extensionally equal. -/
theorem decode_rules_extensionally_equal : ∀ b : Nat, decodeSizeFRS b = decodeSizeIB b :=
  fun _ => rfl

/-- Claim C8: when the underlying read fails with an `IoError`, `pbs`
surfaces exactly that error, with its payload verbatim, and returns no
record. -/
theorem pbs_propagates_io_error :
    ∀ e : IoError, pbs (.error e) = .error (.ioError e) ∧ (pbs (.error e)).toOption = none :=
  fun _ => ⟨rfl, rfl⟩

/-- Claim C9: decoding the same immutable bytes twice yields bit-identical
results: a run of `pbs` leaves the underlying volume bytes unchanged, and
a second run over those (unchanged) bytes returns the same result as the
first. -/
theorem pbs_deterministic (data : List Nat) :
    (pbsRun ⟨data, 0⟩).2.data = data ∧
    (pbsRun ⟨data, 0⟩).1 = (pbsRun ⟨(pbsRun ⟨data, 0⟩).2.data, 0⟩).1 := by
  have hpres : (pbsRun ⟨data, 0⟩).2.data = data := by
    unfold pbsRun readExact
    split <;> rfl
  refine ⟨hpres, ?_⟩
  rw [hpres]

theorem idx_shift (ss j c : Nat) : ss + (j * ss + c) = (j + 1) * ss + c := by ring

theorem getD_drop (l : List Nat) (n i : Nat) : (l.drop n).getD i 0 = l.getD (n + i) 0 := by
  simp [List.getD_eq_getElem?_getD, List.getElem?_drop]

theorem getD_take (l : List Nat) (n i : Nat) (h : i < n) :
    (l.take n).getD i 0 = l.getD i 0 := by
  simp [List.getD_eq_getElem?_getD, List.getElem?_take, h]

theorem getD_append_left (l1 l2 : List Nat) (i : Nat) (h : i < l1.length) :
    (l1 ++ l2).getD i 0 = l1.getD i 0 := by
  simp [List.getD_eq_getElem?_getD, List.getElem?_append, h]

theorem getD_append_right (l1 l2 : List Nat) (i : Nat) (h : l1.length ≤ i) :
    (l1 ++ l2).getD i 0 = l2.getD (i - l1.length) 0 := by
  simp [List.getD_eq_getElem?_getD, List.getElem?_append, Nat.not_lt.mpr h]

theorem getD_cons_two (a b : Nat) (l : List Nat) (n : Nat) :
    (a :: b :: l).getD (n + 2) 0 = l.getD n 0 := by
  simp [List.getD_cons_succ]

/-- Claim C10 (spec-modelled): for every File Record buffer whose size is
a multiple of the sector size, if every sector-sized chunk's last two
bytes equal the Update Sequence Number then the fixup replaces those two
tail bytes of each sector with the corresponding original bytes from the
Update Sequence Array and changes no other byte; if any chunk's last two
bytes differ from the USN, the fixup fails with `badFixup` and no field
is interpreted further. -/
theorem applyFixup_restores_tails (ss : Nat) (usn : Nat × Nat) (usa : List (Nat × Nat))
    (buf : List Nat) (hss2 : 2 ≤ ss) (hlen : buf.length = ss * usa.length) :
    fixupSpec ss usn usa buf := by
  induction usa generalizing buf with
  | nil =>
    have hb : buf = [] := List.eq_nil_of_length_eq_zero (by simpa using hlen)
    subst hb
    constructor
    · intro _
      exact ⟨[], rfl, rfl, fun i hi => absurd hi (by simp)⟩
    · rintro ⟨j, hj, -⟩
      simp at hj
  | cons entry usa ih =>
    rw [List.length_cons, Nat.mul_succ] at hlen
    have hss : ss ≤ buf.length := by omega
    have hdlen : (buf.drop ss).length = ss * usa.length := by
      rw [List.length_drop]; omega
    have htail : ∀ j, chunkTailOk ss usn (buf.drop ss) j ↔ chunkTailOk ss usn buf (j + 1) := by
      intro j
      unfold chunkTailOk
      rw [getD_drop, getD_drop, idx_shift ss j (ss - 2), idx_shift ss j (ss - 1)]
    constructor
    · intro hall
      have h0 : buf.getD (ss - 2) 0 = usn.1 ∧ buf.getD (ss - 1) 0 = usn.2 := by
        have h00 := hall 0 (by simp)
        simpa [chunkTailOk] using h00
      obtain ⟨rest, hrec, hrlen, hrchar⟩ :=
        (ih (buf.drop ss) hdlen).1 (fun j hj => (htail j).mpr (hall (j + 1) (by simp; omega)))
      have htk : (buf.take (ss - 2)).length = ss - 2 := by
        simp [List.length_take]; omega
      refine ⟨buf.take (ss - 2) ++ entry.1 :: entry.2 :: rest, ?_, ?_, ?_⟩
      · simp only [applyFixup]
        rw [if_pos hss, if_pos h0, hrec]
      · simp only [List.length_append, List.length_cons, htk, hrlen]
        omega
      · intro i hi
        by_cases h1 : i < ss - 2
        · rw [getD_append_left _ _ _ (by rw [htk]; omega)]
          rw [getD_take _ _ _ h1]
          rw [Nat.mod_eq_of_lt (show i < ss by omega)]
          rw [if_neg (show ¬(i = ss - 2) by omega), if_neg (show ¬(i = ss - 1) by omega)]
        · by_cases h2 : i = ss - 2
          · subst h2
            rw [getD_append_right _ _ _ htk.le]
            rw [htk, Nat.sub_self, List.getD_cons_zero]
            rw [Nat.mod_eq_of_lt (show ss - 2 < ss by omega)]
            rw [if_pos rfl]
            rw [Nat.div_eq_of_lt (show ss - 2 < ss by omega)]
            rw [List.getD_cons_zero]
          · by_cases h3 : i = ss - 1
            · subst h3
              rw [getD_append_right _ _ _ (by rw [htk]; omega)]
              rw [htk]
              rw [show ss - 1 - (ss - 2) = 0 + 1 from by omega]
              rw [List.getD_cons_succ, List.getD_cons_zero]
              rw [Nat.mod_eq_of_lt (show ss - 1 < ss by omega)]
              rw [if_neg (show ¬(ss - 1 = ss - 2) by omega)]
              rw [if_pos rfl]
              rw [Nat.div_eq_of_lt (show ss - 1 < ss by omega)]
              rw [List.getD_cons_zero]
            · have hle : ss ≤ i := by omega
              rw [getD_append_right _ _ _ (by rw [htk]; omega)]
              rw [htk]
              rw [show i - (ss - 2) = (i - ss) + 2 from by omega]
              rw [getD_cons_two]
              rw [hrchar (i - ss) (by rw [List.length_drop]; omega)]
              have hmod : (i - ss) % ss = i % ss := by
                conv_rhs => rw [show i = ss + (i - ss) from by omega]
                rw [Nat.add_mod_left]
              have hdiv : i / ss = (i - ss) / ss + 1 := by
                conv_lhs => rw [show i = ss + (i - ss) from by omega]
                rw [Nat.add_comm ss (i - ss), Nat.add_div_right _ (show 0 < ss by omega)]
              rw [hmod, hdiv, List.getD_cons_succ]
              rw [getD_drop]
              rw [show ss + (i - ss) = i from by omega]
    · rintro ⟨j, hj, hbad⟩
      simp only [applyFixup]
      rw [if_pos hss]
      by_cases h0 : buf.getD (ss - 2) 0 = usn.1 ∧ buf.getD (ss - 1) 0 = usn.2
      · rw [if_pos h0]
        have hj0 : j ≠ 0 := by
          rintro rfl
          exact hbad (by simpa [chunkTailOk] using h0)
        obtain ⟨jj, rfl⟩ : ∃ jj, j = jj + 1 := ⟨j - 1, by omega⟩
        have hjlt : jj < usa.length := by simp only [List.length_cons] at hj; omega
        have hrec := (ih (buf.drop ss) hdlen).2 ⟨jj, hjlt, fun hok => hbad ((htail jj).mp hok)⟩
        rw [hrec]
      · rw [if_neg h0]

/-- Witness for C10 at a concrete two-sector record (sector size 4, USN
bytes (1,2), Update Sequence Array pairs (9,8) and (7,6)). -/
theorem applyFixup_restores_tails_witness :
    2 ≤ 4 ∧
    ([10, 11, 1, 2, 20, 21, 1, 2] : List Nat).length =
      4 * ([(9, 8), (7, 6)] : List (Nat × Nat)).length ∧
    fixupSpec 4 (1, 2) [(9, 8), (7, 6)] [10, 11, 1, 2, 20, 21, 1, 2] :=
  ⟨by decide, by decide,
    applyFixup_restores_tails 4 (1, 2) [(9, 8), (7, 6)] [10, 11, 1, 2, 20, 21, 1, 2]
      (by decide) (by decide)⟩
